import Mathlib

/-!
# Verification of the tss-esapi safety layer

Shallow embedding of the validated-construction, selection-set and
handle/session-lifecycle subsystems of the `tss-esapi` Rust crate
(files `src/utils/mod.rs`, `structures/lists/pcr_selection.rs`,
`context.rs`), together with proofs settling the specification claims
about them.

Machine integers from the source (`u8`, `u16`, `u32`) are modelled as
`Nat`; none of the modelled operations rely on wrap-around arithmetic.
Fallible Rust functions returning `Result<T>` are modelled as
`Except WrapperErrorKind T` (or `Except TssError T` for functions that
can also surface device errors).  Rust code that can panic is modelled
with an outer `Option`, where `none` is a panic.
-/

/-- `WrapperErrorKind` from `response_code.rs`: the local validation-layer
error kinds. -/
inductive WrapperErrorKind where
  | ParamsMissing
  | InconsistentParams
  | UnsupportedParam
  | WrongParamSize
  | InvalidParam
  | MissingAuthSession
  | WrongValueFromTpm
  deriving DecidableEq, Repr

/-- `Error` from `response_code.rs`, restricted to the two shapes the
modelled code produces: a local wrapper error or a wrapped device
response code. -/
inductive TssError where
  | wrapper (kind : WrapperErrorKind)
  | tss (rc : Nat)
  deriving DecidableEq, Repr

-- TPM algorithm identifiers (`TPM2_ALG_*` constants from the TSS headers).
def TPM2_ALG_RSA : Nat := 0x0001
def TPM2_ALG_SHA1 : Nat := 0x0004
def TPM2_ALG_AES : Nat := 0x0006
def TPM2_ALG_KEYEDHASH : Nat := 0x0008
def TPM2_ALG_XOR : Nat := 0x000A
def TPM2_ALG_SHA256 : Nat := 0x000B
def TPM2_ALG_SHA384 : Nat := 0x000C
def TPM2_ALG_SHA512 : Nat := 0x000D
def TPM2_ALG_NULL : Nat := 0x0010
def TPM2_ALG_SM3_256 : Nat := 0x0012
def TPM2_ALG_SM4 : Nat := 0x0013
def TPM2_ALG_RSASSA : Nat := 0x0014
def TPM2_ALG_RSAES : Nat := 0x0015
def TPM2_ALG_RSAPSS : Nat := 0x0016
def TPM2_ALG_OAEP : Nat := 0x0017
def TPM2_ALG_ECDSA : Nat := 0x0018
def TPM2_ALG_ECDH : Nat := 0x0019
def TPM2_ALG_ECDAA : Nat := 0x001A
def TPM2_ALG_SM2 : Nat := 0x001B
def TPM2_ALG_ECSCHNORR : Nat := 0x001C
def TPM2_ALG_ECMQV : Nat := 0x001D
def TPM2_ALG_ECC : Nat := 0x0023
def TPM2_ALG_SYMCIPHER : Nat := 0x0025
def TPM2_ALG_CFB : Nat := 0x0043

/-- `TPMT_SYM_DEF_OBJECT`.  The `keyBits` and `mode` C unions only ever
hold 16-bit numeric members in the modelled code, so both are `Nat`. -/
structure TPMT_SYM_DEF_OBJECT where
  algorithm : Nat
  keyBits : Nat
  mode : Nat
  deriving DecidableEq, Repr

/-- The zeroed `TPMT_SYM_DEF_OBJECT` produced by `Default::default()`
followed by `def.algorithm = TPM2_ALG_NULL` in
`TpmsRsaParmsBuilder::build`. -/
def nullSymDefObject : TPMT_SYM_DEF_OBJECT :=
  { algorithm := TPM2_ALG_NULL, keyBits := 0, mode := 0 }

/-- Rust enum `AsymSchemeUnion` (`utils/mod.rs`). -/
inductive AsymSchemeUnion where
  | ECDH (hashAlg : Nat)
  | ECMQV (hashAlg : Nat)
  | RSASSA (hashAlg : Nat)
  | RSAPSS (hashAlg : Nat)
  | ECDSA (hashAlg : Nat)
  | ECDAA (hashAlg : Nat) (count : Nat)
  | SM2 (hashAlg : Nat)
  | ECSchnorr (hashAlg : Nat)
  | RSAES
  | RSAOAEP (hashAlg : Nat)
  | AnySig (hashAlg : Nat)
  deriving DecidableEq, Repr

/-- `AsymSchemeUnion::scheme_id`. -/
def AsymSchemeUnion.scheme_id : AsymSchemeUnion → Nat
  | .ECDH _ => TPM2_ALG_ECDH
  | .ECMQV _ => TPM2_ALG_ECMQV
  | .RSASSA _ => TPM2_ALG_RSASSA
  | .RSAPSS _ => TPM2_ALG_RSAPSS
  | .ECDSA _ => TPM2_ALG_ECDSA
  | .ECDAA _ _ => TPM2_ALG_ECDAA
  | .SM2 _ => TPM2_ALG_SM2
  | .ECSchnorr _ => TPM2_ALG_ECSCHNORR
  | .RSAES => TPM2_ALG_RSAES
  | .RSAOAEP _ => TPM2_ALG_OAEP
  | .AnySig _ => TPM2_ALG_NULL

/-- The `TPMU_ASYM_SCHEME` union as written by
`AsymSchemeUnion::get_rsa_scheme`: every variant stores a
`TPMS_SCHEME_HASH` (a single hash-algorithm id) except ECDAA
(hash + count) and RSAES (empty). -/
inductive TpmuAsymScheme where
  | schemeHash (hashAlg : Nat)
  | schemeEcdaa (hashAlg : Nat) (count : Nat)
  | schemeEmpty
  deriving DecidableEq, Repr

/-- `TPMT_RSA_SCHEME`. -/
structure TPMT_RSA_SCHEME where
  scheme : Nat
  details : TpmuAsymScheme
  deriving DecidableEq, Repr

/-- `AsymSchemeUnion::get_rsa_scheme`. -/
def AsymSchemeUnion.get_rsa_scheme (u : AsymSchemeUnion) : TPMT_RSA_SCHEME :=
  { scheme := u.scheme_id
    details :=
      match u with
      | .ECDH h => .schemeHash h
      | .ECMQV h => .schemeHash h
      | .RSASSA h => .schemeHash h
      | .RSAPSS h => .schemeHash h
      | .ECDSA h => .schemeHash h
      | .ECDAA h c => .schemeEcdaa h c
      | .SM2 h => .schemeHash h
      | .ECSchnorr h => .schemeHash h
      | .RSAES => .schemeEmpty
      | .RSAOAEP h => .schemeHash h
      | .AnySig h => .schemeHash h }

/-- `TPMS_RSA_PARMS`. -/
structure TPMS_RSA_PARMS where
  symmetric : TPMT_SYM_DEF_OBJECT
  scheme : TPMT_RSA_SCHEME
  keyBits : Nat
  exponent : Nat
  deriving DecidableEq, Repr

/-- Builder state of `TpmsRsaParmsBuilder` (`utils/mod.rs`). -/
structure TpmsRsaParmsBuilder where
  symmetric : Option TPMT_SYM_DEF_OBJECT
  scheme : Option AsymSchemeUnion
  key_bits : Nat
  exponent : Nat
  for_signing : Bool
  for_decryption : Bool
  restricted : Bool
  deriving DecidableEq, Repr

/-- `TpmsRsaParmsBuilder::new_restricted_decryption_key`. -/
def TpmsRsaParmsBuilder.new_restricted_decryption_key
    (symmetric : TPMT_SYM_DEF_OBJECT) (key_bits exponent : Nat) :
    TpmsRsaParmsBuilder :=
  { symmetric := some symmetric
    scheme := some (.AnySig TPM2_ALG_NULL)
    key_bits := key_bits
    exponent := exponent
    for_signing := false
    for_decryption := true
    restricted := true }

/-- `TpmsRsaParmsBuilder::new_unrestricted_signing_key`. -/
def TpmsRsaParmsBuilder.new_unrestricted_signing_key
    (scheme : AsymSchemeUnion) (key_bits exponent : Nat) :
    TpmsRsaParmsBuilder :=
  { symmetric := none
    scheme := some scheme
    key_bits := key_bits
    exponent := exponent
    for_signing := true
    for_decryption := false
    restricted := false }

/-- Continuation of `TpmsRsaParmsBuilder::build` after the
symmetric-cipher check: the scheme-presence check, the scheme-identity
compatibility checks and the final construction (`utils/mod.rs`
lines 219-267). -/
def TpmsRsaParmsBuilder.buildAfterSymmetricCheck (b : TpmsRsaParmsBuilder) :
    Except WrapperErrorKind TPMS_RSA_PARMS :=
  let symmetric := b.symmetric.getD nullSymDefObject
  match b.scheme with
  | none => Except.error WrapperErrorKind.ParamsMissing
  | some schemeUnion =>
    let scheme := schemeUnion.get_rsa_scheme
    if b.restricted then
      if b.for_signing && !(scheme.scheme = TPM2_ALG_RSAPSS)
          && !(scheme.scheme = TPM2_ALG_RSASSA) then
        Except.error WrapperErrorKind.InconsistentParams
      else if b.for_decryption && !(scheme.scheme = TPM2_ALG_NULL) then
        Except.error WrapperErrorKind.InconsistentParams
      else
        Except.ok { symmetric := symmetric, scheme := scheme,
                    keyBits := b.key_bits, exponent := b.exponent }
    else
      if b.for_decryption && b.for_signing
          && !(scheme.scheme = TPM2_ALG_NULL) then
        Except.error WrapperErrorKind.InconsistentParams
      else if b.for_signing && !(scheme.scheme = TPM2_ALG_RSAPSS)
          && !(scheme.scheme = TPM2_ALG_RSASSA)
          && !(scheme.scheme = TPM2_ALG_NULL) then
        Except.error WrapperErrorKind.InconsistentParams
      else if b.for_decryption && !(scheme.scheme = TPM2_ALG_RSAES)
          && !(scheme.scheme = TPM2_ALG_OAEP)
          && !(scheme.scheme = TPM2_ALG_NULL) then
        Except.error WrapperErrorKind.InconsistentParams
      else
        Except.ok { symmetric := symmetric, scheme := scheme,
                    keyBits := b.key_bits, exponent := b.exponent }

/-- `TpmsRsaParmsBuilder::build` (`utils/mod.rs` lines 211-267),
translated check for check in source order. -/
def TpmsRsaParmsBuilder.build (b : TpmsRsaParmsBuilder) :
    Except WrapperErrorKind TPMS_RSA_PARMS :=
  if b.restricted && b.for_decryption then
    if b.symmetric = none then
      Except.error WrapperErrorKind.ParamsMissing
    else b.buildAfterSymmetricCheck
  else
    if b.symmetric.isSome then
      Except.error WrapperErrorKind.InconsistentParams
    else b.buildAfterSymmetricCheck

/-- Literal reading of claim C1's validation rule.  The symmetric-cipher
and scheme-presence checks are as in the claim; the scheme-identity
compatibility table is read as: restricted signing keys require PSS or
SSA, restricted decryption keys require null (both constraints apply
when both flags are set), unrestricted signing+decryption keys require
null, unrestricted signing-only keys allow PSS, SSA or null,
unrestricted decryption-only keys allow RSAES, OAEP or null, and any
other combination -- in particular a key with neither `for_signing` nor
`for_decryption` set -- fails with `InconsistentParams`. -/
def rsaParmsClaimSpec (b : TpmsRsaParmsBuilder) :
    Except WrapperErrorKind TPMS_RSA_PARMS :=
  if b.restricted && b.for_decryption && b.symmetric = none then
    Except.error WrapperErrorKind.ParamsMissing
  else if !(b.restricted && b.for_decryption) && b.symmetric.isSome then
    Except.error WrapperErrorKind.InconsistentParams
  else
    match b.scheme with
    | none => Except.error WrapperErrorKind.ParamsMissing
    | some schemeUnion =>
      let id := schemeUnion.scheme_id
      let allowed : Bool :=
        if !b.for_signing && !b.for_decryption then
          false
        else
          (!(b.restricted && b.for_signing)
            || (id = TPM2_ALG_RSAPSS || id = TPM2_ALG_RSASSA))
          && (!(b.restricted && b.for_decryption) || id = TPM2_ALG_NULL)
          && (!(!b.restricted && b.for_signing && b.for_decryption)
            || id = TPM2_ALG_NULL)
          && (!(!b.restricted && b.for_signing && !b.for_decryption)
            || (id = TPM2_ALG_RSAPSS || id = TPM2_ALG_RSASSA
                || id = TPM2_ALG_NULL))
          && (!(!b.restricted && !b.for_signing && b.for_decryption)
            || (id = TPM2_ALG_RSAES || id = TPM2_ALG_OAEP
                || id = TPM2_ALG_NULL))
      if allowed then
        Except.ok { symmetric := b.symmetric.getD nullSymDefObject,
                    scheme := schemeUnion.get_rsa_scheme,
                    keyBits := b.key_bits, exponent := b.exponent }
      else
        Except.error WrapperErrorKind.InconsistentParams

/-- Claim C1 amended: identical to `rsaParmsClaimSpec` except that a
key with neither `for_signing` nor `for_decryption` set is not
constrained by the scheme-identity table (any scheme is accepted). -/
def rsaParmsSpecAmended (b : TpmsRsaParmsBuilder) :
    Except WrapperErrorKind TPMS_RSA_PARMS :=
  if b.restricted && b.for_decryption && b.symmetric = none then
    Except.error WrapperErrorKind.ParamsMissing
  else if !(b.restricted && b.for_decryption) && b.symmetric.isSome then
    Except.error WrapperErrorKind.InconsistentParams
  else
    match b.scheme with
    | none => Except.error WrapperErrorKind.ParamsMissing
    | some schemeUnion =>
      let id := schemeUnion.scheme_id
      let allowed : Bool :=
        (!(b.restricted && b.for_signing)
          || (id = TPM2_ALG_RSAPSS || id = TPM2_ALG_RSASSA))
        && (!(b.restricted && b.for_decryption) || id = TPM2_ALG_NULL)
        && (!(!b.restricted && b.for_signing && b.for_decryption)
          || id = TPM2_ALG_NULL)
        && (!(!b.restricted && b.for_signing && !b.for_decryption)
          || (id = TPM2_ALG_RSAPSS || id = TPM2_ALG_RSASSA
              || id = TPM2_ALG_NULL))
        && (!(!b.restricted && !b.for_signing && b.for_decryption)
          || (id = TPM2_ALG_RSAES || id = TPM2_ALG_OAEP
              || id = TPM2_ALG_NULL))
      if allowed then
        Except.ok { symmetric := b.symmetric.getD nullSymDefObject,
                    scheme := schemeUnion.get_rsa_scheme,
                    keyBits := b.key_bits, exponent := b.exponent }
      else
        Except.error WrapperErrorKind.InconsistentParams

/-- Builder state refuting claim C1: restricted key with neither
`for_signing` nor `for_decryption` set, no symmetric cipher, and an
ECDSA scheme.  The claim's table covers no such flag combination, so
the claim demands `InconsistentParams`; the source accepts it. -/
def c1CexBuilder : TpmsRsaParmsBuilder :=
  { symmetric := none
    scheme := some (.ECDSA TPM2_ALG_SHA256)
    key_bits := 2048
    exponent := 0
    for_signing := false
    for_decryption := false
    restricted := true }

/-- C1 counterexample: on `c1CexBuilder` -- a restricted key with
neither `for_signing` nor `for_decryption` set and an ECDSA scheme --
the claim's validation table demands an `InconsistentParams` failure,
but `TpmsRsaParmsBuilder::build` succeeds, so the claim as stated is
false. -/
theorem c1_claim_counterexample :
    TpmsRsaParmsBuilder.build c1CexBuilder =
      Except.ok { symmetric := nullSymDefObject,
                  scheme := { scheme := TPM2_ALG_ECDSA,
                              details := .schemeHash TPM2_ALG_SHA256 },
                  keyBits := 2048, exponent := 0 }
    ∧ rsaParmsClaimSpec c1CexBuilder =
        Except.error WrapperErrorKind.InconsistentParams :=
  ⟨rfl, rfl⟩

/-- C1 (amended): `TpmsRsaParmsBuilder::build` validates exactly as the
claim states -- restricted-and-decryption keys need a symmetric cipher
(`ParamsMissing` if absent), any other flag combination forbids one
(`InconsistentParams` if present), an absent scheme is `ParamsMissing`,
and the scheme identity must satisfy the compatibility table -- except
that a key with neither `for_signing` nor `for_decryption` set is not
constrained by the table: any scheme identity is accepted. -/
theorem c1_build_matches_amended_spec (b : TpmsRsaParmsBuilder) :
    TpmsRsaParmsBuilder.build b = rsaParmsSpecAmended b := by
  obtain ⟨sym, sch, kb, ex, fs, fd, r⟩ := b
  cases sym <;> cases sch <;> cases fs <;> cases fd <;> cases r <;>
    first
    | rfl
    | (rename_i s; cases s <;> rfl)

/-- `TPM2B_DIGEST`: a size plus a 64-byte buffer. -/
structure TPM2B_DIGEST where
  size : Nat
  buffer : List Nat
  deriving DecidableEq, Repr

/-- The zeroed `TPM2B_DIGEST` produced by `Default::default()`. -/
def defaultTpm2bDigest : TPM2B_DIGEST :=
  { size := 0, buffer := List.replicate 64 0 }

/-- `TPM2B_PUBLIC_KEY_RSA`: a size plus a 512-byte buffer. -/
structure TPM2B_PUBLIC_KEY_RSA where
  size : Nat
  buffer : List Nat
  deriving DecidableEq, Repr

/-- The zeroed `TPM2B_PUBLIC_KEY_RSA` that a defaulted (all-zero)
`TPMU_PUBLIC_ID` union denotes when read through its `rsa` member:
the kind-appropriate empty unique value for an RSA object. -/
def defaultRsaUnique : TPM2B_PUBLIC_KEY_RSA :=
  { size := 0, buffer := List.replicate 512 0 }

/-- Rust enum `PublicParmsUnion` (`utils/mod.rs`).  Only the
`RsaDetail` payload is ever inspected or repacked by the modelled code,
so the other variants' payloads are left out of the model. -/
inductive PublicParmsUnion where
  | KeyedHashDetail
  | SymDetail
  | RsaDetail (parms : TPMS_RSA_PARMS)
  | EccDetail
  | AsymDetail
  deriving DecidableEq, Repr

/-- Rust enum `PublicIdUnion` (`utils/mod.rs`).  Only the `Rsa`
payload is ever inspected by the modelled code. -/
inductive PublicIdUnion where
  | KeyedHash (digest : TPM2B_DIGEST)
  | Sym (digest : TPM2B_DIGEST)
  | Rsa (key : TPM2B_PUBLIC_KEY_RSA)
  | Ecc
  deriving DecidableEq, Repr

/-- `TPMT_PUBLIC` as assembled by `Tpm2BPublicBuilder::build`.  The
`parameters` union is only ever written through its `rsaDetail` member
and the `unique` union through its `rsa` member, so those members model
the unions. -/
structure TPMT_PUBLIC where
  type_ : Nat
  nameAlg : Nat
  objectAttributes : Nat
  authPolicy : TPM2B_DIGEST
  parameters : TPMS_RSA_PARMS
  unique : TPM2B_PUBLIC_KEY_RSA
  deriving DecidableEq, Repr

/-- `TPM2B_PUBLIC`.  The leading `size` field of the source structure is
`mem::size_of::<TPMT_PUBLIC>()`, a C-layout platform constant outside
the scope of the model, so it is omitted here. -/
structure TPM2B_PUBLIC where
  publicArea : TPMT_PUBLIC
  deriving DecidableEq, Repr

/-- Builder state of `Tpm2BPublicBuilder` (`utils/mod.rs`).
`object_attributes` is the raw `TPMA_OBJECT` bit-flag word. -/
structure Tpm2BPublicBuilder where
  type_ : Option Nat
  name_alg : Nat
  object_attributes : Nat
  auth_policy : TPM2B_DIGEST
  parameters : Option PublicParmsUnion
  unique : Option PublicIdUnion
  deriving DecidableEq, Repr

/-- `Tpm2BPublicBuilder::new`. -/
def Tpm2BPublicBuilder.new : Tpm2BPublicBuilder :=
  { type_ := none
    name_alg := TPM2_ALG_NULL
    object_attributes := 0
    auth_policy := defaultTpm2bDigest
    parameters := none
    unique := none }

/-- `Tpm2BPublicBuilder::build` (`utils/mod.rs` lines 99-137). -/
def Tpm2BPublicBuilder.build (b : Tpm2BPublicBuilder) :
    Except WrapperErrorKind TPM2B_PUBLIC :=
  match b.type_ with
  | some t =>
    if t = TPM2_ALG_RSA then
      match b.parameters with
      | some (.RsaDetail parms) =>
        match b.unique with
        | some (.Rsa rsaUnique) =>
          Except.ok { publicArea :=
            { type_ := t, nameAlg := b.name_alg,
              objectAttributes := b.object_attributes,
              authPolicy := b.auth_policy,
              parameters := parms, unique := rsaUnique } }
        | none =>
          Except.ok { publicArea :=
            { type_ := t, nameAlg := b.name_alg,
              objectAttributes := b.object_attributes,
              authPolicy := b.auth_policy,
              parameters := parms, unique := defaultRsaUnique } }
        | some _ => Except.error WrapperErrorKind.InconsistentParams
      | none => Except.error WrapperErrorKind.ParamsMissing
      | some _ => Except.error WrapperErrorKind.InconsistentParams
    else Except.error WrapperErrorKind.UnsupportedParam
  | none => Except.error WrapperErrorKind.UnsupportedParam

/-- C5: `Tpm2BPublicBuilder::build` fails with `UnsupportedParam` when
the object type is unset or not RSA; with the type set to RSA it fails
with `ParamsMissing` when no parameter block was set, with
`InconsistentParams` when a non-RSA parameter block or a non-RSA unique
value was set; and with the unique value absent it succeeds carrying
the kind-appropriate empty default unique value. -/
theorem c5_tpm2b_public_build_validation (b : Tpm2BPublicBuilder) :
    (b.type_ = none →
      b.build = Except.error WrapperErrorKind.UnsupportedParam)
    ∧ (∀ t, b.type_ = some t → t ≠ TPM2_ALG_RSA →
      b.build = Except.error WrapperErrorKind.UnsupportedParam)
    ∧ (b.type_ = some TPM2_ALG_RSA → b.parameters = none →
      b.build = Except.error WrapperErrorKind.ParamsMissing)
    ∧ (∀ p, b.type_ = some TPM2_ALG_RSA → b.parameters = some p →
      (∀ q, p ≠ .RsaDetail q) →
      b.build = Except.error WrapperErrorKind.InconsistentParams)
    ∧ (∀ p u, b.type_ = some TPM2_ALG_RSA →
      b.parameters = some (.RsaDetail p) → b.unique = some u →
      (∀ k, u ≠ .Rsa k) →
      b.build = Except.error WrapperErrorKind.InconsistentParams)
    ∧ (∀ p, b.type_ = some TPM2_ALG_RSA →
      b.parameters = some (.RsaDetail p) → b.unique = none →
      b.build = Except.ok { publicArea :=
        { type_ := TPM2_ALG_RSA, nameAlg := b.name_alg,
          objectAttributes := b.object_attributes,
          authPolicy := b.auth_policy,
          parameters := p, unique := defaultRsaUnique } }) := by
  refine ⟨?_, ?_, ?_, ?_, ?_, ?_⟩
  · intro h; simp [Tpm2BPublicBuilder.build, h]
  · intro t h hne; simp [Tpm2BPublicBuilder.build, h, hne]
  · intro h hp; simp [Tpm2BPublicBuilder.build, h, hp]
  · intro p h hp hq
    cases p with
    | RsaDetail q => exact absurd rfl (hq q)
    | _ => simp [Tpm2BPublicBuilder.build, h, hp]
  · intro p u h hp hu hk
    cases u with
    | Rsa k => exact absurd rfl (hk k)
    | _ => simp [Tpm2BPublicBuilder.build, h, hp, hu]
  · intro p h hp hu; simp [Tpm2BPublicBuilder.build, h, hp, hu]

/-- A concrete RSA parameter block used to exercise
`Tpm2BPublicBuilder::build`. -/
def c5ParmsExample : TPMS_RSA_PARMS :=
  { symmetric := nullSymDefObject
    scheme := { scheme := TPM2_ALG_NULL,
                details := .schemeHash TPM2_ALG_NULL }
    keyBits := 2048
    exponent := 0 }

/-- Witness for C5 at concrete builder states: an empty builder fails
with `UnsupportedParam`, an RSA builder with an ECC parameter block
fails with `InconsistentParams`, and an RSA builder with RSA parameters
and no unique value succeeds with the empty default unique value. -/
theorem c5_tpm2b_public_build_validation_witness :
    Tpm2BPublicBuilder.new.build =
      Except.error WrapperErrorKind.UnsupportedParam
    ∧ { Tpm2BPublicBuilder.new with
        type_ := some TPM2_ALG_RSA,
        parameters := some .EccDetail }.build =
      Except.error WrapperErrorKind.InconsistentParams
    ∧ { Tpm2BPublicBuilder.new with
        type_ := some TPM2_ALG_RSA,
        parameters := some (.RsaDetail c5ParmsExample) }.build =
      Except.ok { publicArea :=
        { type_ := TPM2_ALG_RSA, nameAlg := TPM2_ALG_NULL,
          objectAttributes := 0, authPolicy := defaultTpm2bDigest,
          parameters := c5ParmsExample, unique := defaultRsaUnique } } :=
  ⟨(c5_tpm2b_public_build_validation Tpm2BPublicBuilder.new).1 rfl,
   (c5_tpm2b_public_build_validation _).2.2.2.1 .EccDetail rfl rfl
     (fun _ h => PublicParmsUnion.noConfusion h),
   (c5_tpm2b_public_build_validation _).2.2.2.2.2 c5ParmsExample rfl rfl rfl⟩

/-- `PcrSlot::try_from(u32)` (`utils/mod.rs` lines 1043-1074): slot
numbers 0 through 23 name a `PcrSlot`, anything else is rejected.  The
`PcrSlot` value is modelled by its slot number. -/
def PcrSlot.tryFrom (n : Nat) : Except WrapperErrorKind Nat :=
  if n < 24 then Except.ok n else Except.error WrapperErrorKind.InvalidParam

/-- Modelled from the spec: `HashingAlgorithm::try_from(TPM2_ALG_ID)`
lives in `algorithm_specifiers.rs`, which is not part of the sources;
the spec's data model names hash-algorithm banks by their wire
identifiers, so the conversion recognizes the standard hash-algorithm
ids and rejects everything else.  A recognized algorithm is modelled by
its wire id. -/
def HashingAlgorithm.tryFrom (id : Nat) : Option Nat :=
  if id = TPM2_ALG_SHA1 || id = TPM2_ALG_SHA256 || id = TPM2_ALG_SHA384
      || id = TPM2_ALG_SHA512 || id = TPM2_ALG_SM3_256 then
    some id
  else
    none

/-- `TPMS_PCR_SELECTION`: one bank of the wire structure.  `pcrSelect`
is the fixed `[u8; 4]` mask array (`TPM2_PCR_SELECT_MAX = 4`), modelled
as a list of bytes. -/
structure TPMS_PCR_SELECTION where
  hash : Nat
  sizeofSelect : Nat
  pcrSelect : List Nat
  deriving DecidableEq, Repr

/-- The zeroed `TPMS_PCR_SELECTION` produced by `Default::default()`. -/
def defaultTpmsPcrSelection : TPMS_PCR_SELECTION :=
  { hash := 0, sizeofSelect := 0, pcrSelect := [0, 0, 0, 0] }

/-- `TPML_PCR_SELECTION`: a count plus the fixed 16-entry bank array,
modelled as a list. -/
structure TPML_PCR_SELECTION where
  count : Nat
  pcrSelections : List TPMS_PCR_SELECTION
  deriving DecidableEq, Repr

/-- `PcrSelections` (`utils/mod.rs`): `size_of_select` plus the
`HashMap<HashingAlgorithm, HashSet<PcrSlot>>`.  The map is modelled as
an association list from wire algorithm id to the slot set, and each
slot set as a bitmask (bit `i` set iff slot `i` is selected), which is
a canonical representative of the `HashSet`. -/
structure PcrSelections where
  size_of_select : Nat
  items : List (Nat × Nat)
  deriving DecidableEq, Repr

/-- Set bit `1 << (slot % 8)` of octet `slot / 8` in a mask array:
one iteration of the encoding loop of
`From<PcrSelections> for TPML_PCR_SELECTION`. -/
def setSlotBit (bytes : List Nat) (slot : Nat) : List Nat :=
  bytes.set (slot / 8) (bytes.getD (slot / 8) 0 ||| (1 <<< (slot % 8)))

/-- Encoding of one bank by
`From<PcrSelections> for TPML_PCR_SELECTION` (`utils/mod.rs` lines
1100-1115).  The source iterates the `HashSet` in arbitrary order and
ORs one bit per slot; since OR is commutative the result equals the
ascending-order iteration used here. -/
def encodeBank (sizeOfSelect alg slotMask : Nat) : TPMS_PCR_SELECTION :=
  { hash := alg
    sizeofSelect := sizeOfSelect
    pcrSelect := (List.range 24).foldl
      (fun bytes slot =>
        if slotMask.testBit slot then setSlotBit bytes slot else bytes)
      defaultTpmsPcrSelection.pcrSelect }

/-- `From<PcrSelections> for TPML_PCR_SELECTION` (`utils/mod.rs` lines
1100-1115): each map entry becomes one bank and `count` counts them. -/
def tpmlFromPcrSelections (ps : PcrSelections) : TPML_PCR_SELECTION :=
  { count := ps.items.length
    pcrSelections :=
      ps.items.map (fun e => encodeBank ps.size_of_select e.1 e.2) }

/-- The PCR-slot scan of one bank in
`TryFrom<TPML_PCR_SELECTION> for PcrSelections` (`utils/mod.rs` lines
1132-1140): `for slot_nr in 0..((selection.sizeofSelect * 8) - 1)`,
collecting the set slots as a bitmask.  `none` models a panic: the
out-of-bounds mask-array index when `sizeofSelect > 4`, and the
`.unwrap()` of `PcrSlot::try_from` when a set bit names a slot beyond
23.  A `sizeofSelect` of zero underflows the `u8` loop bound in the
source (a panic in debug builds) and is likewise modelled as `none`. -/
def decodeBankSlots (sel : TPMS_PCR_SELECTION) : Option Nat :=
  if sel.sizeofSelect = 0 then
    none
  else
    (List.range (sel.sizeofSelect * 8 - 1)).foldlM
      (fun acc slotNr =>
        match sel.pcrSelect.get? (slotNr / 8) with
        | none => none
        | some byte =>
          let mask := 1 <<< (slotNr % 8)
          if byte &&& mask = mask then
            match PcrSlot.tryFrom slotNr with
            | Except.ok s => some (acc ||| (1 <<< s))
            | Except.error _ => none
          else
            some acc)
      0

/-- `HashMap::insert`: replace the value of an existing key, else add
the entry. -/
def insertReplace (items : List (Nat × Nat)) (alg slotMask : Nat) :
    List (Nat × Nat) :=
  if items.any (fun e => e.1 = alg) then
    items.map (fun e => if e.1 = alg then (alg, slotMask) else e)
  else
    items ++ [(alg, slotMask)]

/-- The bank loop of `TryFrom<TPML_PCR_SELECTION> for PcrSelections`
(`utils/mod.rs` lines 1123-1145): per bank, the `sizeofSelect`
consistency check (`InconsistentParams` on a width differing from the
previously seen one), the slot scan, and the `.unwrap()`ed algorithm
conversion (`none` models that panic on an unrecognized id). -/
def pcrSelectionsLoop :
    List TPMS_PCR_SELECTION → Option Nat → List (Nat × Nat) →
    Option (Except WrapperErrorKind (List (Nat × Nat) × Option Nat))
  | [], sizeOfSelect, items => some (Except.ok (items, sizeOfSelect))
  | sel :: rest, sizeOfSelect, items =>
    if sel.sizeofSelect ≠ sizeOfSelect.getD sel.sizeofSelect then
      some (Except.error WrapperErrorKind.InconsistentParams)
    else
      match decodeBankSlots sel with
      | none => none
      | some slotMask =>
        match HashingAlgorithm.tryFrom sel.hash with
        | none => none
        | some alg =>
          pcrSelectionsLoop rest (some sel.sizeofSelect)
            (insertReplace items alg slotMask)

/-- `TryFrom<TPML_PCR_SELECTION> for PcrSelections` (`utils/mod.rs`
lines 1117-1149).  `none` models a panic: indexing the 16-entry bank
array past its end when `count` exceeds it, any bank-level panic of
`pcrSelectionsLoop`, and the final `size_of_select.unwrap()`, which
panics when the list declared zero banks. -/
def pcrSelectionsTryFrom (tpml : TPML_PCR_SELECTION) :
    Option (Except WrapperErrorKind PcrSelections) :=
  if tpml.pcrSelections.length < tpml.count then
    none
  else
    match pcrSelectionsLoop (tpml.pcrSelections.take tpml.count) none [] with
    | none => none
    | some (Except.error e) => some (Except.error e)
    | some (Except.ok (items, some w)) =>
      some (Except.ok { size_of_select := w, items := items })
    | some (Except.ok (_, none)) => none

/-- Equality of `Except` values is decidable when it is on both
components; needed to evaluate the modelled fallible operations at
concrete inputs. -/
instance {ε α : Type} [DecidableEq ε] [DecidableEq α] :
    DecidableEq (Except ε α) := fun x y =>
  match x, y with
  | .ok a, .ok b =>
    if h : a = b then isTrue (by rw [h]) else isFalse (by simp [h])
  | .error a, .error b =>
    if h : a = b then isTrue (by rw [h]) else isFalse (by simp [h])
  | .ok _, .error _ => isFalse (by simp)
  | .error _, .ok _ => isFalse (by simp)

/-- The selection exercising the highest slot: bank Sha256 with exactly
slot 23 selected, `size_of_select = 3`. -/
def c3SlotTwentyThree : PcrSelections :=
  { size_of_select := 3, items := [(TPM2_ALG_SHA256, 1 <<< 23)] }

/-- C3 fails on the code (the spec flags the defect): encoding
`c3SlotTwentyThree` sets bit `1 << 7` of octet 2 as specified, but the
decoding loop runs `0..(sizeofSelect * 8 - 1)` and never examines bit
position 23, so decoding the encoded value returns the Sha256 bank with
an empty slot set instead of `{slot 23}` -- the round-trip fails on a
selection whose slots all lie in `0..24`. -/
theorem c3_roundtrip_drops_slot23 :
    (tpmlFromPcrSelections c3SlotTwentyThree).pcrSelections =
      [{ hash := TPM2_ALG_SHA256, sizeofSelect := 3,
         pcrSelect := [0, 0, 0x80, 0] }]
    ∧ pcrSelectionsTryFrom (tpmlFromPcrSelections c3SlotTwentyThree) =
      some (Except.ok { size_of_select := 3,
                        items := [(TPM2_ALG_SHA256, 0)] })
    ∧ ({ size_of_select := 3, items := [(TPM2_ALG_SHA256, 0)] } :
        PcrSelections) ≠ c3SlotTwentyThree := by
  refine ⟨by decide, by decide, by decide⟩

/-- C9 fails on the code: decoding a `TPML_PCR_SELECTION` with zero
banks panics (`size_of_select.unwrap()` on `None`), decoding a bank
with an unrecognized hash-algorithm id panics
(`HashingAlgorithm::try_from(..).unwrap()`), and decoding a bank of
width 4 with a bit set at position 24 panics
(`PcrSlot::try_from(..).unwrap()`) -- three inputs on which the
conversion neither returns `Ok` nor `Err`. -/
theorem c9_decode_panics :
    pcrSelectionsTryFrom
      { count := 0,
        pcrSelections := List.replicate 16 defaultTpmsPcrSelection } = none
    ∧ pcrSelectionsTryFrom
      { count := 1,
        pcrSelections := { hash := 0xFFFF, sizeofSelect := 3,
                           pcrSelect := [1, 0, 0, 0] }
          :: List.replicate 15 defaultTpmsPcrSelection } = none
    ∧ pcrSelectionsTryFrom
      { count := 1,
        pcrSelections := { hash := TPM2_ALG_SHA256, sizeofSelect := 4,
                           pcrSelect := [0, 0, 0, 1] }
          :: List.replicate 15 defaultTpmsPcrSelection } = none := by
  refine ⟨by decide, by decide, by decide⟩

/-- Modelled from the spec: the `PcrSelection` structure
(`structures/pcr` is not part of the sources).  A SelectionSet is, for
one hash-algorithm bank, the set of selected slot indices represented
as a fixed-width bitmask of `size_of_select` octets; the slot set is
modelled as a bitmask. -/
structure PcrSelection where
  hashing_algorithm : Nat
  size_of_select : Nat
  selected_pcrs : Nat
  deriving DecidableEq, Repr

/-- Modelled from the spec: `PcrSelection::is_empty` -- the emptiness
test of the slot set. -/
def PcrSelection.is_empty (s : PcrSelection) : Bool :=
  s.selected_pcrs = 0

/-- Modelled from the spec:
`TryFrom<TPMS_PCR_SELECTION> for PcrSelection`
(`structures/pcr` is not part of the sources).  Per the spec's
encoding, bit `i` of octet `i / 8` marks slot `i` selected, the mask
being `size_of_select * 8` bits wide; an algorithm id that is not a
recognized hash algorithm is not supported. -/
def PcrSelection.tryFrom (sel : TPMS_PCR_SELECTION) :
    Except WrapperErrorKind PcrSelection :=
  match HashingAlgorithm.tryFrom sel.hash with
  | none => Except.error WrapperErrorKind.UnsupportedParam
  | some alg =>
    Except.ok
      { hashing_algorithm := alg
        size_of_select := sel.sizeofSelect
        selected_pcrs :=
          (List.range (sel.sizeofSelect * 8)).foldl
            (fun acc slotNr =>
              if (sel.pcrSelect.getD (slotNr / 8) 0).testBit (slotNr % 8)
              then acc ||| (1 <<< slotNr) else acc)
            0 }

/-- Modelled from the spec: `PcrSelection::merge` -- union of the slot
sets of a shared algorithm, failing with `InconsistentParams` when the
two operands declare different `size_of_select` widths. -/
def PcrSelection.merge (s other : PcrSelection) :
    Except WrapperErrorKind PcrSelection :=
  if s.size_of_select ≠ other.size_of_select then
    Except.error WrapperErrorKind.InconsistentParams
  else
    Except.ok { s with selected_pcrs := s.selected_pcrs ||| other.selected_pcrs }

/-- Modelled from the spec: `PcrSelection::subtract` -- the asymmetric
difference of the slot sets.  On bitmasks the difference is the
receiver's mask with the common bits cleared: since the bits of
`s &&& other` are a sub-crowd of the bits of `s`, subtracting the
conjunction clears exactly the slots selected by `other`. -/
def PcrSelection.subtractBank (s other : PcrSelection) : PcrSelection :=
  { s with selected_pcrs :=
      s.selected_pcrs - (s.selected_pcrs &&& other.selected_pcrs) }

/-- `PcrSelectionList` (`pcr_selection.rs`): the
`HashMap<HashingAlgorithm, PcrSelection>` modelled as an association
list from wire algorithm id to bank; the list order models the map's
iteration order. -/
structure PcrSelectionList where
  items : List (Nat × PcrSelection)
  deriving DecidableEq, Repr

/-- `PcrSelectionList::MAX_SIZE`. -/
def PcrSelectionList.MAX_SIZE : Nat := 16

/-- First value stored under a key in an association list
(`HashMap::get`). -/
def lookupKey : List (Nat × PcrSelection) → Nat → Option PcrSelection
  | [], _ => none
  | e :: rest, k => if e.1 = k then some e.2 else lookupKey rest k

/-- In-place update of the value stored under a key
(`HashMap::get_mut` followed by assignment). -/
def updateKey (l : List (Nat × PcrSelection)) (k : Nat)
    (v : PcrSelection) : List (Nat × PcrSelection) :=
  l.map (fun e => if e.1 = k then (k, v) else e)

/-- Removal of a key (`HashMap::remove`). -/
def removeKey (l : List (Nat × PcrSelection)) (k : Nat) :
    List (Nat × PcrSelection) :=
  l.filter (fun e => e.1 ≠ k)

/-- Derived `PartialEq` of `PcrSelectionList`: two `HashMap`s are equal
when they hold the same set of key-value pairs. -/
def PcrSelectionList.mapEquiv (a b : PcrSelectionList) : Bool :=
  a.items.length = b.items.length
    && a.items.all (fun e => b.items.contains e)
    && b.items.all (fun e => a.items.contains e)

/-- The bank loop of `PcrSelectionList::subtract`
(`pcr_selection.rs` lines 91-108): for each algorithm of `other`, look
the bank up in `self` (failing with `InvalidParam` when absent, with
`self` left as already mutated), subtract the slots, and drop the bank
entirely when its slot set became empty. -/
def PcrSelectionList.subtractLoop :
    List (Nat × PcrSelection) → List (Nat × PcrSelection) →
    Except WrapperErrorKind Unit × List (Nat × PcrSelection)
  | [], a => (Except.ok (), a)
  | (alg, otherSel) :: rest, a =>
    match lookupKey a alg with
    | none => (Except.error WrapperErrorKind.InvalidParam, a)
    | some sel =>
      let sel' := sel.subtractBank otherSel
      let a' := if sel'.is_empty then removeKey a alg else updateKey a alg sel'
      PcrSelectionList.subtractLoop rest a'

/-- `PcrSelectionList::subtract` (`pcr_selection.rs` lines 80-110).
The receiver is mutated in place in the source; the model returns the
final receiver next to the result. -/
def PcrSelectionList.subtract (a other : PcrSelectionList) :
    Except WrapperErrorKind Unit × PcrSelectionList :=
  if a.mapEquiv other then
    (Except.ok (), { items := [] })
  else if a.items.isEmpty then
    (Except.error WrapperErrorKind.InvalidParam, a)
  else
    let r := PcrSelectionList.subtractLoop other.items a.items
    (r.1, { items := r.2 })

/-- The bank loop of `TryFrom<TPML_PCR_SELECTION> for PcrSelectionList`
(`pcr_selection.rs` lines 142-157): parse each bank and insert it,
merging with a previously inserted bank of the same algorithm. -/
def PcrSelectionList.tryFromLoop :
    List TPMS_PCR_SELECTION → List (Nat × PcrSelection) →
    Except WrapperErrorKind (List (Nat × PcrSelection))
  | [], items => Except.ok items
  | sel :: rest, items =>
    match PcrSelection.tryFrom sel with
    | Except.error e => Except.error e
    | Except.ok parsed =>
      match lookupKey items parsed.hashing_algorithm with
      | some prev =>
        match prev.merge parsed with
        | Except.error e => Except.error e
        | Except.ok merged =>
          PcrSelectionList.tryFromLoop rest
            (updateKey items parsed.hashing_algorithm merged)
      | none =>
        PcrSelectionList.tryFromLoop rest
          (items ++ [(parsed.hashing_algorithm, parsed)])

/-- `TryFrom<TPML_PCR_SELECTION> for PcrSelectionList`
(`pcr_selection.rs` lines 125-160): reject a list declaring more than
`MAX_SIZE` banks with `InvalidParam`, then parse and insert the first
`count` banks. -/
def PcrSelectionList.tryFrom (tpml : TPML_PCR_SELECTION) :
    Except WrapperErrorKind PcrSelectionList :=
  if tpml.count > PcrSelectionList.MAX_SIZE then
    Except.error WrapperErrorKind.InvalidParam
  else
    match PcrSelectionList.tryFromLoop (tpml.pcrSelections.take tpml.count) [] with
    | Except.error e => Except.error e
    | Except.ok items => Except.ok { items := items }

/-- The bank loop of the selection-list decoding never produces
`InvalidParam`: bank parsing rejects only unsupported algorithms and
merging rejects only width mismatches. -/
theorem tryFromLoop_ne_invalidParam (banks : List TPMS_PCR_SELECTION)
    (items : List (Nat × PcrSelection)) :
    PcrSelectionList.tryFromLoop banks items ≠
      Except.error WrapperErrorKind.InvalidParam := by
  induction banks generalizing items with
  | nil => simp [PcrSelectionList.tryFromLoop]
  | cons sel rest ih =>
    dsimp only [PcrSelectionList.tryFromLoop]
    cases hp : PcrSelection.tryFrom sel with
    | error e =>
      have he : e = WrapperErrorKind.UnsupportedParam := by
        unfold PcrSelection.tryFrom at hp
        cases hh : HashingAlgorithm.tryFrom sel.hash <;> simp [hh] at hp
        exact hp.symm
      subst he
      simp
    | ok parsed =>
      dsimp only
      cases hl : lookupKey items parsed.hashing_algorithm with
      | none => exact ih _
      | some prev =>
        dsimp only
        cases hm : prev.merge parsed with
        | error e =>
          have he : e = WrapperErrorKind.InconsistentParams := by
            unfold PcrSelection.merge at hm
            by_cases hw : prev.size_of_select ≠ parsed.size_of_select <;>
              simp [hw] at hm
            exact hm.symm
          subst he
          simp [hm]
        | ok merged =>
          simp only [hm]
          exact ih _

/-- Decomposition of the `PcrSelections` decoding loop over a split of
the bank list: once a prefix decodes cleanly, the loop continues on the
suffix from the reached state. -/
theorem pcrSelectionsLoop_append (xs ys : List TPMS_PCR_SELECTION)
    (s s' : Option Nat) (acc acc' : List (Nat × Nat))
    (h : pcrSelectionsLoop xs s acc = some (Except.ok (acc', s'))) :
    pcrSelectionsLoop (xs ++ ys) s acc = pcrSelectionsLoop ys s' acc' := by
  induction xs generalizing s acc with
  | nil =>
    simp [pcrSelectionsLoop] at h
    simp [h.1, h.2]
  | cons sel rest ih =>
    rw [List.cons_append]
    dsimp only [pcrSelectionsLoop] at h ⊢
    by_cases hw : sel.sizeofSelect ≠ s.getD sel.sizeofSelect
    · simp [hw] at h
    · simp only [hw, if_false, ite_false, if_neg, not_false_iff] at h ⊢
      cases hd : decodeBankSlots sel with
      | none => simp [hd] at h
      | some slotMask =>
        simp only [hd] at h ⊢
        cases hh : HashingAlgorithm.tryFrom sel.hash with
        | none => simp [hh] at h
        | some alg =>
          simp only [hh] at h ⊢
          exact ih _ _ h

/-- C6: decoding a wire selection list fails with `InvalidParam` when
it declares more than 16 banks, never fails with `InvalidParam` when it
declares 16 or fewer, and fails with `InconsistentParams` when a bank
declares a `size_of_select` width different from the width of the
previously seen banks of the same list. -/
theorem c6_decode_bank_count_and_width (tpml : TPML_PCR_SELECTION)
    (pre rest : List TPMS_PCR_SELECTION) (bad : TPMS_PCR_SELECTION)
    (acc : List (Nat × Nat)) (w : Nat) :
    (PcrSelectionList.MAX_SIZE < tpml.count →
      PcrSelectionList.tryFrom tpml =
        Except.error WrapperErrorKind.InvalidParam)
    ∧ (tpml.count ≤ PcrSelectionList.MAX_SIZE →
      PcrSelectionList.tryFrom tpml ≠
        Except.error WrapperErrorKind.InvalidParam)
    ∧ (pcrSelectionsLoop pre none [] = some (Except.ok (acc, some w)) →
      bad.sizeofSelect ≠ w →
      pcrSelectionsTryFrom
        { count := (pre ++ bad :: rest).length,
          pcrSelections := pre ++ bad :: rest } =
        some (Except.error WrapperErrorKind.InconsistentParams)) := by
  refine ⟨?_, ?_, ?_⟩
  · intro h
    simp [PcrSelectionList.tryFrom, h]
  · intro h
    dsimp only [PcrSelectionList.tryFrom]
    rw [if_neg (by omega)]
    cases hl : PcrSelectionList.tryFromLoop
        (tpml.pcrSelections.take tpml.count) [] with
    | error e =>
      have hne := tryFromLoop_ne_invalidParam
        (tpml.pcrSelections.take tpml.count) []
      rw [hl] at hne
      simpa using hne
    | ok items => simp
  · intro hpre hbad
    dsimp only [pcrSelectionsTryFrom]
    rw [if_neg (by omega)]
    rw [List.take_length]
    rw [pcrSelectionsLoop_append pre (bad :: rest) none (some w) [] acc hpre]
    dsimp only [pcrSelectionsLoop]
    rw [if_pos (by simpa using hbad)]

/-- A bank of width 3 with slot 0 selected, used as concrete input. -/
def c6BankSha256 : TPMS_PCR_SELECTION :=
  { hash := TPM2_ALG_SHA256, sizeofSelect := 3, pcrSelect := [1, 0, 0, 0] }

/-- A bank of width 2, mismatching `c6BankSha256`. -/
def c6BankSha1Narrow : TPMS_PCR_SELECTION :=
  { hash := TPM2_ALG_SHA1, sizeofSelect := 2, pcrSelect := [0, 0, 0, 0] }

/-- Witness for C6 at concrete inputs: a 17-bank list is rejected with
`InvalidParam`, a 1-bank list is not rejected with `InvalidParam`, and
a 2-bank list whose second bank declares width 2 after a width-3 bank
fails with `InconsistentParams`. -/
theorem c6_decode_bank_count_and_width_witness :
    PcrSelectionList.tryFrom
      { count := 17,
        pcrSelections := List.replicate 17 c6BankSha256 } =
      Except.error WrapperErrorKind.InvalidParam
    ∧ PcrSelectionList.tryFrom
      { count := 1, pcrSelections := [c6BankSha256] } ≠
      Except.error WrapperErrorKind.InvalidParam
    ∧ pcrSelectionsTryFrom
      { count := ([c6BankSha256] ++ c6BankSha1Narrow :: []).length,
        pcrSelections := [c6BankSha256] ++ c6BankSha1Narrow :: [] } =
      some (Except.error WrapperErrorKind.InconsistentParams) :=
  ⟨(c6_decode_bank_count_and_width
      { count := 17, pcrSelections := List.replicate 17 c6BankSha256 }
      [] [] c6BankSha1Narrow [] 0).1 (by decide),
   (c6_decode_bank_count_and_width
      { count := 1, pcrSelections := [c6BankSha256] }
      [] [] c6BankSha1Narrow [] 0).2.1 (by decide),
   (c6_decode_bank_count_and_width
      { count := 1, pcrSelections := [c6BankSha256] }
      [c6BankSha256] [] c6BankSha1Narrow [(TPM2_ALG_SHA256, 1)] 3).2.2
      (by decide) (by decide)⟩

/-- The list-level result claim C2 describes: every bank of `a` named
in `b` has `b`'s slots removed and is dropped when its slot set became
empty; banks of `a` not named in `b` are untouched. -/
def subtractExpected (a b : List (Nat × PcrSelection)) :
    List (Nat × PcrSelection) :=
  a.filterMap (fun e =>
    match lookupKey b e.1 with
    | none => some e
    | some o =>
      let v := e.2.subtractBank o
      if v.is_empty then none else some (e.1, v))

/-- Updating a key in place leaves the key sequence unchanged. -/
theorem keys_updateKey (l : List (Nat × PcrSelection)) (k : Nat)
    (v : PcrSelection) :
    (updateKey l k v).map Prod.fst = l.map Prod.fst := by
  induction l with
  | nil => rfl
  | cons e rest ih =>
    by_cases h : e.1 = k <;> simp [updateKey, h] at ih ⊢ <;>
      simpa [updateKey] using ih

/-- Keys surviving a removal were keys before it. -/
theorem keys_removeKey_subset (l : List (Nat × PcrSelection)) (k m : Nat)
    (h : m ∈ (removeKey l k).map Prod.fst) : m ∈ l.map Prod.fst := by
  simp only [removeKey, List.mem_map] at h ⊢
  obtain ⟨e, he, rfl⟩ := h
  exact ⟨e, (List.mem_filter.mp he).1, rfl⟩

/-- A lookup fails exactly on absent keys. -/
theorem lookupKey_eq_none (l : List (Nat × PcrSelection)) (k : Nat) :
    lookupKey l k = none ↔ k ∉ l.map Prod.fst := by
  induction l with
  | nil => simp [lookupKey]
  | cons e rest ih =>
    dsimp only [lookupKey]
    by_cases h : e.1 = k
    · simp [h]
    · simp only [h, if_false, ite_false, if_neg, not_false_iff, ih,
        List.map_cons, List.mem_cons, not_or]
      constructor
      · exact fun hr => ⟨fun hk => h hk.symm, hr⟩
      · exact fun hr => hr.2

/-- Removing an absent key changes nothing. -/
theorem removeKey_of_not_mem (l : List (Nat × PcrSelection)) (k : Nat)
    (h : k ∉ l.map Prod.fst) : removeKey l k = l := by
  induction l with
  | nil => rfl
  | cons e rest ih =>
    simp only [List.map_cons, List.mem_cons, not_or] at h
    simp only [removeKey] at ih ⊢
    rw [List.filter_cons_of_pos (by simp; exact fun hk => h.1 hk.symm),
      ih h.2]

/-- Updating an absent key changes nothing. -/
theorem updateKey_of_not_mem (l : List (Nat × PcrSelection)) (k : Nat)
    (v : PcrSelection) (h : k ∉ l.map Prod.fst) : updateKey l k v = l := by
  induction l with
  | nil => rfl
  | cons e rest ih =>
    simp only [List.map_cons, List.mem_cons, not_or] at h
    show (if e.1 = k then (k, v) else e) :: updateKey rest k v = e :: rest
    rw [if_neg (fun hk => h.1 hk.symm), ih h.2]

/-- Subtracting the empty selection list changes nothing. -/
theorem subtractExpected_nil (a : List (Nat × PcrSelection)) :
    subtractExpected a [] = a := by
  induction a with
  | nil => rfl
  | cons e rest ih =>
    simp only [subtractExpected, List.filterMap_cons] at ih ⊢
    rw [show lookupKey [] e.1 = none from rfl]
    simpa using ih

/-- When some key of `B` is absent from the receiver, the subtraction
loop ends in `InvalidParam`: the missing key stays missing while
earlier iterations only update or remove their own keys. -/
theorem subtractLoop_missing_key (B : List (Nat × PcrSelection))
    (a : List (Nat × PcrSelection)) (m : Nat)
    (hmB : m ∈ B.map Prod.fst) (hma : m ∉ a.map Prod.fst) :
    (PcrSelectionList.subtractLoop B a).1 =
      Except.error WrapperErrorKind.InvalidParam := by
  induction B generalizing a with
  | nil => simp at hmB
  | cons e rest ih =>
    obtain ⟨alg, osel⟩ := e
    simp only [List.map_cons, List.mem_cons] at hmB
    dsimp only [PcrSelectionList.subtractLoop]
    cases hl : lookupKey a alg with
    | none => rfl
    | some sel =>
      dsimp only
      have halg : alg ∈ a.map Prod.fst := by
        by_contra hc
        rw [(lookupKey_eq_none a alg).mpr hc] at hl
        cases hl
      have hm : m ∈ rest.map Prod.fst := by
        rcases hmB with h1 | h1
        · exact absurd (h1 ▸ halg) hma
        · exact h1
      apply ih _ hm
      by_cases hemp : (sel.subtractBank osel).is_empty
      · simp only [hemp, if_true, ite_true]
        exact fun hc => hma (keys_removeKey_subset a alg m hc)
      · simp only [hemp, if_false, ite_false, Bool.false_eq_true]
        rw [keys_updateKey]
        exact hma

/-- A leading bank of the subtrahend whose key occurs nowhere in the
receiver's entries does not affect the expected result. -/
theorem subtractExpected_cons_ne (a rest : List (Nat × PcrSelection))
    (k : Nat) (u : PcrSelection) (h : ∀ x ∈ a, x.1 ≠ k) :
    subtractExpected a ((k, u) :: rest) = subtractExpected a rest := by
  induction a with
  | nil => rfl
  | cons e a0 ih =>
    simp only [subtractExpected, List.filterMap_cons] at ih ⊢
    have he : lookupKey ((k, u) :: rest) e.1 = lookupKey rest e.1 := by
      dsimp only [lookupKey]
      rw [if_neg (fun hk => h e (by simp) hk.symm)]
    rw [he, ih (fun x hx => h x (List.mem_cons_of_mem e hx))]

/-- Keys other than the removed one survive a removal. -/
theorem mem_keys_removeKey_of_ne (l : List (Nat × PcrSelection))
    (k m : Nat) (hne : m ≠ k) (h : m ∈ l.map Prod.fst) :
    m ∈ (removeKey l k).map Prod.fst := by
  simp only [removeKey, List.mem_map] at h ⊢
  obtain ⟨e, he, rfl⟩ := h
  exact ⟨e, List.mem_filter.mpr ⟨he, by simpa using hne⟩, rfl⟩

/-- Removing a key preserves distinctness of the keys. -/
theorem nodup_keys_removeKey (l : List (Nat × PcrSelection)) (k : Nat)
    (h : (l.map Prod.fst).Nodup) : ((removeKey l k).map Prod.fst).Nodup :=
  ((List.filter_sublist l).map Prod.fst).nodup h

/-- One iteration of the subtraction loop agrees with the expected
result: processing the leading bank `(k, u)` of the subtrahend and
continuing with the rest equals the simultaneous description. -/
theorem subtractExpected_step (a rest : List (Nat × PcrSelection))
    (k : Nat) (u sel : PcrSelection)
    (hnd : (a.map Prod.fst).Nodup) (hl : lookupKey a k = some sel)
    (hkrest : k ∉ rest.map Prod.fst) :
    subtractExpected a ((k, u) :: rest) =
      subtractExpected
        (if (sel.subtractBank u).is_empty then removeKey a k
         else updateKey a k (sel.subtractBank u)) rest := by
  induction a with
  | nil => cases hl
  | cons e a0 ih =>
    simp only [List.map_cons, List.nodup_cons] at hnd
    by_cases he : e.1 = k
    · -- the head entry is the one found by the lookup
      have hsel : sel = e.2 := by
        dsimp only [lookupKey] at hl
        rw [if_pos he] at hl
        exact (Option.some.inj hl).symm
      subst hsel
      have hka0 : k ∉ a0.map Prod.fst := he ▸ hnd.1
      have hcong : ∀ x ∈ a0, x.1 ≠ k := by
        intro x hx hk
        exact hka0 (hk ▸ List.mem_map_of_mem Prod.fst hx)
      have hhead : lookupKey ((k, u) :: rest) e.1 = some u := by
        dsimp only [lookupKey]
        rw [if_pos he.symm]
      by_cases hemp : (e.2.subtractBank u).is_empty
      · simp only [hemp, if_true, ite_true]
        have hrm : removeKey (e :: a0) k = a0 := by
          simp only [removeKey]
          rw [List.filter_cons_of_neg (by simp [he])]
          exact removeKey_of_not_mem a0 k hka0
        rw [hrm]
        simp only [subtractExpected, List.filterMap_cons, hhead]
        rw [if_pos hemp]
        exact subtractExpected_cons_ne a0 rest k u hcong
      · simp only [hemp, if_false, ite_false, Bool.false_eq_true]
        have hupd : updateKey (e :: a0) k (e.2.subtractBank u) =
            (k, e.2.subtractBank u) :: a0 := by
          show (if e.1 = k then (k, e.2.subtractBank u) else e)
              :: updateKey a0 k (e.2.subtractBank u) =
            (k, e.2.subtractBank u) :: a0
          rw [if_pos he, updateKey_of_not_mem a0 k _ hka0]
        rw [hupd]
        simp only [subtractExpected, List.filterMap_cons, hhead]
        rw [show lookupKey rest (k, e.2.subtractBank u).1 = none from
          (lookupKey_eq_none rest k).mpr hkrest]
        dsimp only
        rw [if_neg (by simpa using hemp)]
        rw [he]
        exact congrArg _ (subtractExpected_cons_ne a0 rest k u hcong)
    · -- the head entry is untouched by this step
      have hl0 : lookupKey a0 k = some sel := by
        dsimp only [lookupKey] at hl
        rwa [if_neg he] at hl
      have hstep := ih hnd.2 hl0
      have hsplit :
          (if (sel.subtractBank u).is_empty then removeKey (e :: a0) k
           else updateKey (e :: a0) k (sel.subtractBank u)) =
          e :: (if (sel.subtractBank u).is_empty then removeKey a0 k
                else updateKey a0 k (sel.subtractBank u)) := by
        by_cases hemp : (sel.subtractBank u).is_empty
        · simp only [hemp, if_true, ite_true]
          simp only [removeKey]
          rw [List.filter_cons_of_pos (by simp [he])]
        · simp only [hemp, if_false, ite_false, Bool.false_eq_true]
          show (if e.1 = k then (k, sel.subtractBank u) else e) :: _ = _
          rw [if_neg he]
          rfl
      rw [hsplit]
      have hee : lookupKey ((k, u) :: rest) e.1 = lookupKey rest e.1 := by
        dsimp only [lookupKey]
        rw [if_neg (fun hk => he hk.symm)]
      simp only [subtractExpected, List.filterMap_cons, hee] at hstep ⊢
      cases hr : lookupKey rest e.1 with
      | none =>
        dsimp only
        exact congrArg _ hstep
      | some o =>
        by_cases hv : (e.2.subtractBank o).is_empty
        · simp only [hv, if_true, ite_true]
          exact hstep
        · simp only [hv, if_false, ite_false, Bool.false_eq_true]
          exact congrArg _ hstep

/-- When every key of `B` is present in the receiver, the subtraction
loop succeeds and produces exactly the expected per-bank result. -/
theorem subtractLoop_total (B : List (Nat × PcrSelection))
    (a : List (Nat × PcrSelection))
    (hndB : (B.map Prod.fst).Nodup) (hnda : (a.map Prod.fst).Nodup)
    (hsub : ∀ k ∈ B.map Prod.fst, k ∈ a.map Prod.fst) :
    PcrSelectionList.subtractLoop B a =
      (Except.ok (), subtractExpected a B) := by
  induction B generalizing a with
  | nil =>
    rw [subtractExpected_nil]
    rfl
  | cons e rest ih =>
    obtain ⟨k, u⟩ := e
    simp only [List.map_cons, List.nodup_cons] at hndB
    have hk : k ∈ a.map Prod.fst := hsub k (by simp)
    obtain ⟨sel, hl⟩ : ∃ sel, lookupKey a k = some sel := by
      cases h : lookupKey a k with
      | none => exact absurd hk ((lookupKey_eq_none a k).mp h)
      | some sel => exact ⟨sel, rfl⟩
    dsimp only [PcrSelectionList.subtractLoop]
    rw [hl]
    dsimp only
    rw [subtractExpected_step a rest k u sel hnda hl hndB.1]
    apply ih
    · exact hndB.2
    · -- the stepped receiver still has nodup keys
      by_cases hemp : (sel.subtractBank u).is_empty
      · simp only [hemp, if_true, ite_true]
        exact nodup_keys_removeKey a k hnda
      · simp only [hemp, if_false, ite_false, Bool.false_eq_true]
        rw [keys_updateKey]
        exact hnda
    · -- every remaining key of B is still a key of the stepped receiver
      intro m hm
      have hma : m ∈ a.map Prod.fst := hsub m (List.mem_cons_of_mem k hm)
      have hmk : m ≠ k := fun hc => hndB.1 (hc ▸ hm)
      by_cases hemp : (sel.subtractBank u).is_empty
      · simp only [hemp, if_true, ite_true]
        exact mem_keys_removeKey_of_ne a k m hmk hma
      · simp only [hemp, if_false, ite_false, Bool.false_eq_true]
        rw [keys_updateKey]
        exact hma


/-- C2: `PcrSelectionList::subtract` empties the receiver and returns
`Ok` when the two lists are structurally identical; fails with
`InvalidParam` when some algorithm key of the subtrahend is absent from
the receiver; and otherwise removes the subtrahend's slots from each
named bank of the receiver, dropping a bank whose slot set became
empty. -/
theorem c2_subtract_behaviour (a b : PcrSelectionList) :
    (a.mapEquiv b = true →
      a.subtract b = (Except.ok (), { items := [] }))
    ∧ (a.mapEquiv b = false →
      (∃ k, k ∈ b.items.map Prod.fst ∧ k ∉ a.items.map Prod.fst) →
      (a.subtract b).1 = Except.error WrapperErrorKind.InvalidParam)
    ∧ (a.mapEquiv b = false →
      (a.items.map Prod.fst).Nodup → (b.items.map Prod.fst).Nodup →
      (∀ k ∈ b.items.map Prod.fst, k ∈ a.items.map Prod.fst) →
      a.subtract b =
        (Except.ok (), { items := subtractExpected a.items b.items })) := by
  refine ⟨?_, ?_, ?_⟩
  · intro h
    simp [PcrSelectionList.subtract, h]
  · intro h hmiss
    obtain ⟨m, hmB, hma⟩ := hmiss
    dsimp only [PcrSelectionList.subtract]
    rw [h]
    by_cases hae : a.items.isEmpty
    · simp [hae]
    · simp only [hae, if_false, ite_false, Bool.false_eq_true]
      exact subtractLoop_missing_key b.items a.items m hmB hma
  · intro h hnda hndb hsub
    dsimp only [PcrSelectionList.subtract]
    rw [h]
    by_cases hae : a.items.isEmpty
    · exfalso
      have ha : a.items = [] := List.isEmpty_iff.mp hae
      have hb : b.items = [] := by
        cases hbv : b.items with
        | nil => rfl
        | cons e brest =>
          have hmem : e.1 ∈ a.items.map Prod.fst :=
            hsub e.1 (by rw [hbv]; simp)
          rw [ha] at hmem
          simp at hmem
      rw [show a.mapEquiv b = true by
        simp [PcrSelectionList.mapEquiv, ha, hb]] at h
      cases h
    · simp only [hae, if_false, ite_false, Bool.false_eq_true]
      rw [subtractLoop_total b.items a.items hndb hnda hsub]

/-- A bank holding slots 0 and 8 of the Sha1 bank, width 3. -/
def c2BankSha1 : PcrSelection :=
  { hashing_algorithm := TPM2_ALG_SHA1, size_of_select := 3,
    selected_pcrs := 257 }

/-- A bank holding slot 0 of the Sha1 bank, width 3. -/
def c2BankSha1Slot0 : PcrSelection :=
  { hashing_algorithm := TPM2_ALG_SHA1, size_of_select := 3,
    selected_pcrs := 1 }

/-- Witness for C2 at concrete lists: subtracting a list from itself
empties it with `Ok`, and subtracting `{Sha1: {0}}` from
`{Sha1: {0, 8}}` leaves `{Sha1: {8}}`. -/
theorem c2_subtract_behaviour_witness :
    PcrSelectionList.subtract
      { items := [(TPM2_ALG_SHA1, c2BankSha1)] }
      { items := [(TPM2_ALG_SHA1, c2BankSha1)] } =
      (Except.ok (), { items := [] })
    ∧ PcrSelectionList.subtract
      { items := [(TPM2_ALG_SHA1, c2BankSha1)] }
      { items := [(TPM2_ALG_SHA1, c2BankSha1Slot0)] } =
      (Except.ok (),
       { items := [(TPM2_ALG_SHA1,
          { hashing_algorithm := TPM2_ALG_SHA1, size_of_select := 3,
            selected_pcrs := 256 })] }) :=
  ⟨(c2_subtract_behaviour
      { items := [(TPM2_ALG_SHA1, c2BankSha1)] }
      { items := [(TPM2_ALG_SHA1, c2BankSha1)] }).1 (by decide),
   by
    have h := (c2_subtract_behaviour
      { items := [(TPM2_ALG_SHA1, c2BankSha1)] }
      { items := [(TPM2_ALG_SHA1, c2BankSha1Slot0)] }).2.2
      (by decide) (by decide) (by decide) (by decide)
    rw [h]
    decide⟩

/-- The receiver for C10: the single bank `{Sha1: {0, 8}}`. -/
def c10Receiver : PcrSelectionList :=
  { items := [(TPM2_ALG_SHA1, c2BankSha1)] }

/-- The subtrahend for C10: bank `{Sha1: {0}}` processed first, then a
Sha256 bank absent from the receiver. -/
def c10Subtrahend : PcrSelectionList :=
  { items := [(TPM2_ALG_SHA1, c2BankSha1Slot0),
    (TPM2_ALG_SHA256,
      { hashing_algorithm := TPM2_ALG_SHA256, size_of_select := 3,
        selected_pcrs := 1 })] }

/-- C10: `PcrSelectionList::subtract` is not atomic on failure -- at
these concrete lists the call fails with `InvalidParam` while the
receiver has already lost slot 0 of its Sha1 bank, so on error the
receiver differs from its pre-call value. -/
theorem c10_subtract_not_atomic :
    PcrSelectionList.subtract c10Receiver c10Subtrahend =
      (Except.error WrapperErrorKind.InvalidParam,
       { items := [(TPM2_ALG_SHA1,
          { hashing_algorithm := TPM2_ALG_SHA1, size_of_select := 3,
            selected_pcrs := 256 })] })
    ∧ ({ items := [(TPM2_ALG_SHA1,
          { hashing_algorithm := TPM2_ALG_SHA1, size_of_select := 3,
            selected_pcrs := 256 })] } : PcrSelectionList) ≠ c10Receiver :=
  ⟨by decide, by decide⟩

/-- A `Session` (`session.rs`): modelled by the ESYS handle of its
backing resource. -/
structure Session where
  handle : Nat
  deriving DecidableEq, Repr

/-- The 3-slot session registry of the `Context`
(`sessions: (Option<Session>, Option<Session>, Option<Session>)`). -/
def Sessions3 : Type := Option Session × Option Session × Option Session

/-- Modelled from the spec: the disposition tag of a tracked resource
handle (`handle_manager.rs` is not part of the sources). -/
inductive HandleDisposition where
  | mustFlush
  | mustClose
  | permanent
  deriving DecidableEq, Repr

/-- A command issued to the device over the command channel. -/
inductive DeviceCmd where
  | startAuth
  | setAttrs (handle : Nat)
  | flush (handle : Nat)
  | close (handle : Nat)
  deriving DecidableEq, Repr

/-- The mutable state of a `Context` (`context.rs`): the session
registry, the handle manager's registry (modelled from the spec as the
tracked handles with their dispositions), the trace of commands issued
to the device, and the TPM-property cache.  The two FFI context
pointers carry no modelled state. -/
structure CtxState where
  sessions : Sessions3
  registry : List (Nat × HandleDisposition)
  trace : List DeviceCmd
  cachedProps : List (Nat × Nat)

/-- The device's responses, supplied as an oracle: what the one
`start_auth_session` call of the scoped combinator returns, and whether
attribute-setting, flushes and closes succeed. -/
structure TpmDevice where
  startAuthResult : Except TssError (Option Session)
  setAttrsResult : Except TssError Unit
  flushResult : Nat → Except TssError Unit
  closeResult : Nat → Except TssError Unit

/-- Modelled from the spec: `handles_to_flush()` of the handle manager
-- the outstanding `MustFlush` handles. -/
def handlesToFlush (reg : List (Nat × HandleDisposition)) : List Nat :=
  (reg.filter (fun e => e.2 = HandleDisposition.mustFlush)).map Prod.fst

/-- Modelled from the spec: `handles_to_close()` of the handle manager
-- the outstanding `MustClose` handles. -/
def handlesToClose (reg : List (Nat × HandleDisposition)) : List Nat :=
  (reg.filter (fun e => e.2 = HandleDisposition.mustClose)).map Prod.fst

/-- Modelled from the spec: `has_open_handles()` of the handle manager
-- true while any releasable (non-permanent) handle remains tracked. -/
def hasOpenHandles (reg : List (Nat × HandleDisposition)) : Bool :=
  reg.any (fun e => ¬e.2 = HandleDisposition.permanent)

/-- Releasing a handle unregisters it from the handle manager. -/
def removeHandle (reg : List (Nat × HandleDisposition)) (h : Nat) :
    List (Nat × HandleDisposition) :=
  reg.filter (fun e => e.1 ≠ h)

/-- `Context::flush_context`: issue a flush command for the handle; on
success the handle manager drops the handle, on failure it stays
tracked (the command dispatch lives in `tpm_commands`, outside the
sources; its registry bookkeeping is modelled from the spec). -/
def Context.flush_context (dev : TpmDevice) (h : Nat) (c : CtxState) :
    Except TssError Unit × CtxState :=
  match dev.flushResult h with
  | Except.ok _ =>
    (Except.ok (), { c with trace := c.trace ++ [DeviceCmd.flush h],
                            registry := removeHandle c.registry h })
  | Except.error e =>
    (Except.error e, { c with trace := c.trace ++ [DeviceCmd.flush h] })

/-- `Context::tr_close`: issue a close command for the handle; on
success the handle manager drops the handle (modelled from the spec as
for `flush_context`). -/
def Context.tr_close (dev : TpmDevice) (h : Nat) (c : CtxState) :
    Except TssError Unit × CtxState :=
  match dev.closeResult h with
  | Except.ok _ =>
    (Except.ok (), { c with trace := c.trace ++ [DeviceCmd.close h],
                            registry := removeHandle c.registry h })
  | Except.error e =>
    (Except.error e, { c with trace := c.trace ++ [DeviceCmd.close h] })

/-- `Context::execute_with_sessions` (`context.rs` lines 216-233):
save the active sessions, install the requested ones, run the work,
restore the saved sessions, return the work's result. -/
def Context.execute_with_sessions {T : Type}
    (c : CtxState) (session_handles : Sessions3)
    (f : CtxState → T × CtxState) : T × CtxState :=
  let oldses := c.sessions
  let r := f { c with sessions := session_handles }
  (r.1, { r.2 with sessions := oldses })

/-- `Context::execute_with_session` (`context.rs` lines 236-242). -/
def Context.execute_with_session {T : Type}
    (c : CtxState) (session_handle : Option Session)
    (f : CtxState → T × CtxState) : T × CtxState :=
  Context.execute_with_sessions c (session_handle, none, none) f

/-- C8: `execute_with_sessions` runs the work on the context with the
requested sessions installed, returns exactly the work's result (of any
result type, so for successes and failures alike), restores the session
registry to its pre-call value, and leaves every other field of the
context exactly as the work left it. -/
theorem c8_execute_with_sessions_frame {T : Type}
    (c : CtxState) (s : Sessions3) (f : CtxState → T × CtxState) :
    (Context.execute_with_sessions c s f).1 =
      (f { c with sessions := s }).1
    ∧ (Context.execute_with_sessions c s f).2.sessions = c.sessions
    ∧ (Context.execute_with_sessions c s f).2.registry =
      (f { c with sessions := s }).2.registry
    ∧ (Context.execute_with_sessions c s f).2.trace =
      (f { c with sessions := s }).2.trace
    ∧ (Context.execute_with_sessions c s f).2.cachedProps =
      (f { c with sessions := s }).2.cachedProps :=
  ⟨rfl, rfl, rfl, rfl, rfl⟩

/-- `Context::start_auth_session` restricted to the arguments the
nullauth combinator passes (no bind/salt key, HMAC type, AES-128-CFB,
Sha256).  The command dispatch lives in `tpm_commands`, outside the
sources; per the spec every device-allocated handle is registered with
the manager at the moment it is obtained, a session handle with
disposition `MustFlush`. -/
def Context.start_auth_session (dev : TpmDevice) (c : CtxState) :
    Except TssError (Option Session) × CtxState :=
  match dev.startAuthResult with
  | Except.error e =>
    (Except.error e, { c with trace := c.trace ++ [DeviceCmd.startAuth] })
  | Except.ok none =>
    (Except.ok none, { c with trace := c.trace ++ [DeviceCmd.startAuth] })
  | Except.ok (some s) =>
    (Except.ok (some s),
     { c with trace := c.trace ++ [DeviceCmd.startAuth],
              registry := c.registry
                ++ [(s.handle, HandleDisposition.mustFlush)] })

/-- `Context::tr_sess_set_attributes` (command dispatch outside the
sources): issue the attribute-setting command for the session's
handle. -/
def Context.tr_sess_set_attributes (dev : TpmDevice) (s : Session)
    (c : CtxState) : Except TssError Unit × CtxState :=
  (dev.setAttrsResult,
   { c with trace := c.trace ++ [DeviceCmd.setAttrs s.handle] })

/-- `Context::execute_with_nullauth_session` (`context.rs` lines
259-287): open a fresh session (erroring with `WrongValueFromTpm` when
the device returns none), set decrypt+encrypt attributes, run the work
under that session alone, then flush the session's handle; a flush
failure replaces the work's result. -/
def Context.execute_with_nullauth_session {T : Type} (dev : TpmDevice)
    (f : CtxState → Except TssError T × CtxState) (c : CtxState) :
    Except TssError T × CtxState :=
  match Context.start_auth_session dev c with
  | (Except.error e, c1) => (Except.error e, c1)
  | (Except.ok none, c1) =>
    (Except.error (TssError.wrapper WrapperErrorKind.WrongValueFromTpm), c1)
  | (Except.ok (some session), c1) =>
    match Context.tr_sess_set_attributes dev session c1 with
    | (Except.error e, c2) => (Except.error e, c2)
    | (Except.ok _, c2) =>
      let r := Context.execute_with_session c2 (some session) f
      let fr := Context.flush_context dev session.handle r.2
      match fr.1 with
      | Except.error e => (Except.error e, fr.2)
      | Except.ok _ => (r.1, fr.2)

/-- The context the nullauth combinator hands to its work: the freshly
registered `MustFlush` session handle, the start/set-attributes
commands on the trace, and that session installed as the only
session. -/
def nullauthWorkCtx (c : CtxState) (s : Session) : CtxState :=
  { c with
    sessions := (some s, none, none)
    trace := c.trace ++ [DeviceCmd.startAuth] ++ [DeviceCmd.setAttrs s.handle]
    registry := c.registry ++ [(s.handle, HandleDisposition.mustFlush)] }

/-- C7: whenever the device opens a session for
`execute_with_nullauth_session`, the work runs on the context with that
session installed as the only session, a flush command for the
session's handle is issued after the work and before the combinator
returns (whatever the work returned, `Ok` or `Err`), the session
configuration from before the call is restored, and -- when the device
accepts the flush -- no `MustFlush` registry entry for the session's
handle remains. -/
theorem c7_nullauth_session_flushed {T : Type} (dev : TpmDevice)
    (f : CtxState → Except TssError T × CtxState) (c : CtxState)
    (s : Session)
    (hstart : dev.startAuthResult = Except.ok (some s))
    (hattrs : dev.setAttrsResult = Except.ok ()) :
    (Context.execute_with_nullauth_session dev f c).2.trace =
      (f (nullauthWorkCtx c s)).2.trace ++ [DeviceCmd.flush s.handle]
    ∧ (Context.execute_with_nullauth_session dev f c).2.sessions =
      c.sessions
    ∧ (dev.flushResult s.handle = Except.ok () →
      s.handle ∉
        (Context.execute_with_nullauth_session dev f c).2.registry.map
          Prod.fst) := by
  unfold Context.execute_with_nullauth_session Context.start_auth_session
  rw [hstart]
  dsimp only
  unfold Context.tr_sess_set_attributes
  rw [hattrs]
  dsimp only
  unfold Context.flush_context Context.execute_with_session
    Context.execute_with_sessions
  cases hfl : dev.flushResult s.handle with
  | ok u =>
    cases u
    dsimp only
    refine ⟨rfl, rfl, fun _ => ?_⟩
    simp only [removeHandle, List.mem_map, List.mem_filter]
    rintro ⟨e, ⟨_, hne⟩, he⟩
    simp [he] at hne
  | error e =>
    dsimp only
    refine ⟨rfl, rfl, fun hok => ?_⟩
    cases hok

/-- A device that opens session handle 7 and accepts every command. -/
def c7Device : TpmDevice :=
  { startAuthResult := Except.ok (some { handle := 7 })
    setAttrsResult := Except.ok ()
    flushResult := fun _ => Except.ok ()
    closeResult := fun _ => Except.ok () }

/-- A unit of work that fails with a device error and leaves the
context untouched. -/
def c7FailingWork (st : CtxState) : Except TssError Nat × CtxState :=
  (Except.error (TssError.tss 0x100), st)

/-- An initial context with no sessions and an empty registry. -/
def c7Initial : CtxState :=
  { sessions := (none, none, none), registry := [], trace := [],
    cachedProps := [] }

/-- Witness for C7: with the concrete device and a failing unit of
work, the combinator's trace ends in the session flush right after the
work, the sessions are restored to none, and no registry entry for the
session handle remains. -/
theorem c7_nullauth_session_flushed_witness :
    (Context.execute_with_nullauth_session c7Device c7FailingWork
      c7Initial).2.trace =
      (c7FailingWork (nullauthWorkCtx c7Initial { handle := 7 })).2.trace
        ++ [DeviceCmd.flush 7]
    ∧ (Context.execute_with_nullauth_session c7Device c7FailingWork
      c7Initial).2.sessions = (none, none, none)
    ∧ (7 : Nat) ∉
      (Context.execute_with_nullauth_session c7Device c7FailingWork
        c7Initial).2.registry.map Prod.fst :=
  ⟨(c7_nullauth_session_flushed c7Device c7FailingWork c7Initial
      { handle := 7 } rfl rfl).1,
   (c7_nullauth_session_flushed c7Device c7FailingWork c7Initial
      { handle := 7 } rfl rfl).2.1,
   (c7_nullauth_session_flushed c7Device c7FailingWork c7Initial
      { handle := 7 } rfl rfl).2.2 rfl⟩

/-- The flush loop of `Drop for Context` (`context.rs` lines 408-414):
issue a flush for each handle, logging and ignoring failures. -/
def flushAll (dev : TpmDevice) : List Nat → CtxState → CtxState
  | [], c => c
  | h :: hs, c => flushAll dev hs (Context.flush_context dev h c).2

/-- The close loop of `Drop for Context` (`context.rs` lines 416-422):
issue a close for each handle, logging and ignoring failures. -/
def closeAll (dev : TpmDevice) : List Nat → CtxState → CtxState
  | [], c => c
  | h :: hs, c => closeAll dev hs (Context.tr_close dev h c).2

/-- `Drop for Context` (`context.rs` lines 404-438), restricted to the
handle-release protocol: flush every `MustFlush` handle, then close
every `MustClose` handle (the list snapshot taken after the flushes, as
in the source), then report -- never fail on -- any handle still
tracked. -/
def Context.drop (dev : TpmDevice) (c : CtxState) : CtxState × Bool :=
  let c1 := flushAll dev (handlesToFlush c.registry) c
  let c2 := closeAll dev (handlesToClose c1.registry) c1
  (c2, hasOpenHandles c2.registry)

/-- The flush loop appends exactly one flush command per handle,
whether or not the device accepts it. -/
theorem flushAll_trace (dev : TpmDevice) (hs : List Nat) (c : CtxState) :
    (flushAll dev hs c).trace = c.trace ++ hs.map DeviceCmd.flush := by
  induction hs generalizing c with
  | nil => simp [flushAll]
  | cons h hs ih =>
    show (flushAll dev hs (Context.flush_context dev h c).2).trace = _
    rw [ih]
    cases hres : dev.flushResult h with
    | ok u =>
      simp [Context.flush_context, hres]
    | error e =>
      simp [Context.flush_context, hres]

/-- The close loop appends exactly one close command per handle,
whether or not the device accepts it. -/
theorem closeAll_trace (dev : TpmDevice) (hs : List Nat) (c : CtxState) :
    (closeAll dev hs c).trace = c.trace ++ hs.map DeviceCmd.close := by
  induction hs generalizing c with
  | nil => simp [closeAll]
  | cons h hs ih =>
    show (closeAll dev hs (Context.tr_close dev h c).2).trace = _
    rw [ih]
    cases hres : dev.closeResult h with
    | ok u =>
      simp [Context.tr_close, hres]
    | error e =>
      simp [Context.tr_close, hres]

/-- The flush loop only ever removes registry entries. -/
theorem flushAll_registry_subset (dev : TpmDevice) (hs : List Nat)
    (c : CtxState) (p : Nat × HandleDisposition)
    (hp : p ∈ (flushAll dev hs c).registry) : p ∈ c.registry := by
  induction hs generalizing c with
  | nil => exact hp
  | cons h hs ih =>
    have hp1 := ih (c := (Context.flush_context dev h c).2) hp
    unfold Context.flush_context at hp1
    cases hres : dev.flushResult h with
    | ok u =>
      rw [hres] at hp1
      dsimp only at hp1
      exact (List.mem_filter.mp hp1).1
    | error e =>
      rw [hres] at hp1
      exact hp1

/-- When the flushed handles carry only `MustFlush` entries, the flush
loop leaves the `MustClose` entries untouched. -/
theorem flushAll_closefilter (dev : TpmDevice) (hs : List Nat)
    (c : CtxState)
    (hdisj : ∀ x ∈ hs, ∀ p ∈ c.registry,
      p.1 = x → p.2 = HandleDisposition.mustFlush) :
    (flushAll dev hs c).registry.filter
        (fun e => e.2 = HandleDisposition.mustClose) =
      c.registry.filter (fun e => e.2 = HandleDisposition.mustClose) := by
  induction hs generalizing c with
  | nil => rfl
  | cons h hs ih =>
    show (flushAll dev hs (Context.flush_context dev h c).2).registry.filter _
        = _
    rw [ih]
    · -- one flush step preserves the close entries
      unfold Context.flush_context
      cases hres : dev.flushResult h with
      | ok u =>
        dsimp only
        simp only [removeHandle, List.filter_filter]
        refine List.filter_congr ?_
        intro e he
        by_cases hek : e.1 = h
        · have hf := hdisj h (by simp) e he hek
          simp [hf, hek]
        · simp [hek]
      | error e =>
        dsimp only
    · -- the hypothesis survives the step
      intro x hx p hpmem hpx
      exact hdisj x (List.mem_cons_of_mem h hx) p
        (by
          unfold Context.flush_context at hpmem
          cases hres : dev.flushResult h with
          | ok u =>
            rw [hres] at hpmem
            dsimp only at hpmem
            exact (List.mem_filter.mp hpmem).1
          | error e =>
            rw [hres] at hpmem
            exact hpmem)
        hpx

/-- Membership in the flush worklist. -/
theorem mem_handlesToFlush (reg : List (Nat × HandleDisposition))
    (x : Nat) :
    x ∈ handlesToFlush reg ↔
      ∃ p ∈ reg, p.2 = HandleDisposition.mustFlush ∧ p.1 = x := by
  simp only [handlesToFlush, List.mem_map, List.mem_filter,
    decide_eq_true_eq]
  constructor
  · rintro ⟨p, ⟨hp, hd⟩, rfl⟩
    exact ⟨p, hp, hd, rfl⟩
  · rintro ⟨p, hp, hd, rfl⟩
    exact ⟨p, ⟨hp, hd⟩, rfl⟩

/-- Membership in the close worklist. -/
theorem mem_handlesToClose (reg : List (Nat × HandleDisposition))
    (x : Nat) :
    x ∈ handlesToClose reg ↔
      ∃ p ∈ reg, p.2 = HandleDisposition.mustClose ∧ p.1 = x := by
  simp only [handlesToClose, List.mem_map, List.mem_filter,
    decide_eq_true_eq]
  constructor
  · rintro ⟨p, ⟨hp, hd⟩, rfl⟩
    exact ⟨p, hp, hd, rfl⟩
  · rintro ⟨p, hp, hd, rfl⟩
    exact ⟨p, ⟨hp, hd⟩, rfl⟩

/-- With distinct keys, a registry key determines its entry. -/
theorem registry_inj_of_nodup (reg : List (Nat × HandleDisposition))
    (hnd : (reg.map Prod.fst).Nodup) :
    ∀ p ∈ reg, ∀ q ∈ reg, p.1 = q.1 → p = q := by
  intro p hp q hq hpq
  exact List.inj_on_of_nodup_map hnd hp hq hpq

/-- C4: during context teardown every flush command precedes every
close command on the device trace whatever release commands the device
rejects (an individual failure never stops the remaining releases),
`Permanent` handles appear in neither release worklist, and no handle
is released twice.  The teardown returns a report, not an error, so a
lingering handle never becomes a teardown failure. -/
theorem c4_drop_release_protocol (dev : TpmDevice) (c : CtxState)
    (hnd : (c.registry.map Prod.fst).Nodup) :
    (Context.drop dev c).1.trace =
      c.trace ++ (handlesToFlush c.registry).map DeviceCmd.flush
        ++ (handlesToClose c.registry).map DeviceCmd.close
    ∧ (∀ h, (h, HandleDisposition.permanent) ∈ c.registry →
        h ∉ handlesToFlush c.registry ∧ h ∉ handlesToClose c.registry)
    ∧ (handlesToFlush c.registry ++ handlesToClose c.registry).Nodup := by
  have hinj := registry_inj_of_nodup c.registry hnd
  have hdisj : ∀ x ∈ handlesToFlush c.registry, ∀ p ∈ c.registry,
      p.1 = x → p.2 = HandleDisposition.mustFlush := by
    intro x hx p hp hpx
    obtain ⟨q, hq, hqd, hqx⟩ := (mem_handlesToFlush c.registry x).mp hx
    rw [hinj p hp q hq (hpx.trans hqx.symm)]
    exact hqd
  have hclose : handlesToClose
      (flushAll dev (handlesToFlush c.registry) c).registry =
      handlesToClose c.registry := by
    unfold handlesToClose
    rw [flushAll_closefilter dev (handlesToFlush c.registry) c hdisj]
  refine ⟨?_, ?_, ?_⟩
  · show (closeAll dev
      (handlesToClose (flushAll dev (handlesToFlush c.registry) c).registry)
      (flushAll dev (handlesToFlush c.registry) c)).trace = _
    rw [closeAll_trace, flushAll_trace, hclose, List.append_assoc]
  · intro h hperm
    constructor
    · intro hmem
      obtain ⟨q, hq, hqd, hqx⟩ := (mem_handlesToFlush c.registry h).mp hmem
      have hpq := hinj (h, HandleDisposition.permanent) hperm q hq
        (by simp [hqx])
      rw [← hpq] at hqd
      cases hqd
    · intro hmem
      obtain ⟨q, hq, hqd, hqx⟩ := (mem_handlesToClose c.registry h).mp hmem
      have hpq := hinj (h, HandleDisposition.permanent) hperm q hq
        (by simp [hqx])
      rw [← hpq] at hqd
      cases hqd
  · have hf : (handlesToFlush c.registry).Nodup := by
      refine List.Nodup.sublist ?_ hnd
      exact List.Sublist.map Prod.fst (List.filter_sublist c.registry)
    have hc : (handlesToClose c.registry).Nodup := by
      refine List.Nodup.sublist ?_ hnd
      exact List.Sublist.map Prod.fst (List.filter_sublist c.registry)
    refine hf.append hc ?_
    intro x hxf hxc
    obtain ⟨p, hp, hpd, hpx⟩ := (mem_handlesToFlush c.registry x).mp hxf
    obtain ⟨q, hq, hqd, hqx⟩ := (mem_handlesToClose c.registry x).mp hxc
    have hpq := hinj p hp q hq (hpx.trans hqx.symm)
    rw [hpq] at hpd
    rw [hpd] at hqd
    cases hqd

/-- A device that rejects the flush of handle 1 and accepts everything
else. -/
def c4Device : TpmDevice :=
  { startAuthResult := Except.ok none
    setAttrsResult := Except.ok ()
    flushResult := fun h =>
      if h = 1 then Except.error (TssError.tss 0x9A2) else Except.ok ()
    closeResult := fun _ => Except.ok () }

/-- A context holding two `MustFlush` handles, one `MustClose` handle
and one `Permanent` handle. -/
def c4Ctx : CtxState :=
  { sessions := (none, none, none)
    registry := [(1, HandleDisposition.mustFlush),
      (2, HandleDisposition.mustFlush),
      (3, HandleDisposition.mustClose),
      (4, HandleDisposition.permanent)]
    trace := []
    cachedProps := [] }

/-- Witness for C4: tearing down `c4Ctx` against `c4Device` issues both
flushes (the first one failing) before the close, and the permanent
handle 4 is in neither worklist. -/
theorem c4_drop_release_protocol_witness :
    (Context.drop c4Device c4Ctx).1.trace =
      [DeviceCmd.flush 1, DeviceCmd.flush 2, DeviceCmd.close 3]
    ∧ (4 : Nat) ∉ handlesToFlush c4Ctx.registry
    ∧ (4 : Nat) ∉ handlesToClose c4Ctx.registry :=
  ⟨(c4_drop_release_protocol c4Device c4Ctx (by decide)).1.trans
    (by decide),
   ((c4_drop_release_protocol c4Device c4Ctx (by decide)).2.1 4
    (by decide)).1,
   ((c4_drop_release_protocol c4Device c4Ctx (by decide)).2.1 4
    (by decide)).2⟩
